import Mathlib

/-!
Shallow embedding of the per-telemetry-cycle control pipeline of
`src/main.cpp` (CarND-MPC-Project): the socket-payload extractor `hasData`,
the polynomial helpers `polyeval`/`polyfit`, the frame transform
`global2car`, the latency-compensation kinematic update, and the
onMessage telemetry branch that assembles them into the emitted command.

Doubles are modelled as real numbers.  The two external numerical services
(Eigen's Householder-QR least-squares solve inside `polyfit`, and
`MPC::Solve`) are abstracted as function parameters `qrSolve` and `solve`:
every theorem below holds for an arbitrary behaviour of those services
unless it instantiates them.  A failed C `assert` aborts the process; that
outcome is modelled by `Option.none` / `Outcome.crash`.
-/

namespace MpcMain

/-- The character `}` (written via its code point). -/
def rbrace : Char := Char.ofNat 125

/-- Predicate `occursAt pat s`: holds when `pat` occurs at the very start of `s`
(the building block for `std::string::find` / `rfind`). -/
def occursAt : List Char → List Char → Bool
  | [], _ => true
  | _ :: _, [] => false
  | p :: ps, c :: cs => (p == c) && occursAt ps cs

/-- Smallest index `i ≤ s.length` at which `pat` occurs in `s`
(`std::string::find`); `none` models `npos`. -/
def firstOcc (pat s : List Char) : Option Nat :=
  ((List.range (s.length + 1)).filter fun i => occursAt pat (s.drop i)).head?

/-- Largest index `i ≤ s.length` at which `pat` occurs in `s`
(`std::string::rfind`); `none` models `npos`. -/
def lastOcc (pat s : List Char) : Option Nat :=
  ((List.range (s.length + 1)).filter fun i => occursAt pat (s.drop i)).getLast?

/-- Function `hasData` (main.cpp lines 23-33).  `found_null = s.find("null")`,
`b1 = s.find_first_of("[")`, `b2 = s.rfind("}]")`; on the success path the
source returns `s.substr(b1, b2 - b1 + 2)` where the count is computed in
`size_t` arithmetic, i.e. modulo `2^64`. -/
def hasData (s : List Char) : List Char :=
  let foundNull := firstOcc ['n', 'u', 'l', 'l'] s
  let b1 := firstOcc ['['] s
  let b2 := lastOcc [rbrace, ']'] s
  match foundNull, b1, b2 with
  | some _, _, _ => []
  | none, some i, some j =>
      (s.drop i).take (((j : ℤ) - (i : ℤ) + 2) % (2 ^ 64 : ℤ)).toNat
  | _, _, _ => []

/-- Replies the onMessage handler can send for one raw frame. -/
inductive Reply where
  | processed (payload : List Char)
  | manual
  | ignored
  deriving DecidableEq

/-- The outer dispatch of the onMessage handler (main.cpp lines 95-97 and
226-230): frames not starting with "42" are ignored; an empty `hasData`
extraction yields the manual-driving reply; otherwise the payload goes on
to telemetry processing. -/
def dispatch (sdata : List Char) : Reply :=
  if 2 < sdata.length ∧ sdata.getD 0 ' ' = '4' ∧ sdata.getD 1 ' ' = '2' then
    if hasData sdata ≠ [] then Reply.processed (hasData sdata) else Reply.manual
  else Reply.ignored

/-- Conversion `deg2rad` (main.cpp line 17). -/
noncomputable def deg2rad (x : ℝ) : ℝ := x * Real.pi / 180

/-- Evaluation `polyeval` (main.cpp lines 36-42): `result += coeffs[i] * pow(x, i)`
over `i = 0 .. coeffs.size() - 1`. -/
noncomputable def polyeval (coeffs : List ℝ) (x : ℝ) : ℝ :=
  (List.range coeffs.length).foldl (fun result i => result + coeffs.getD i 0 * x ^ i) 0

/-- Row `j` of the design matrix built in `polyfit` (main.cpp lines 51-61):
`A(j,0) = 1` and `A(j,i+1) = A(j,i) * xvals(j)`, i.e. `A(j,i) = xvals(j)^i`. -/
noncomputable def vanderRow (x : ℝ) (order : ℕ) : List ℝ :=
  (List.range (order + 1)).map fun i => x ^ i

/-- Fit `polyfit` (main.cpp lines 47-66).  The two C `assert`s
(`xvals.size() == yvals.size()` and `order >= 1 && order <= xvals.size()-1`,
in `int` arithmetic) abort the process on failure, modelled as `none`.
The Householder-QR least-squares solve is the external dense linear-algebra
service (spec section 6), abstracted as `qrSolve`. -/
noncomputable def polyfit (qrSolve : List (List ℝ) → List ℝ → List ℝ)
    (xvals yvals : List ℝ) (order : ℕ) : Option (List ℝ) :=
  if xvals.length = yvals.length ∧ 1 ≤ order ∧ (order : ℤ) ≤ (xvals.length : ℤ) - 1 then
    some (qrSolve (xvals.map fun xj => vanderRow xj order) yvals)
  else none

/-- Transform `global2car` (main.cpp lines 68-79). -/
noncomputable def global2car (psi px py xGlobal yGlobal : ℝ) : ℝ × ℝ :=
  let dx := xGlobal - px
  let dy := yGlobal - py
  let sinPsi := Real.sin psi
  let cosPsi := Real.cos psi
  (dx * cosPsi + dy * sinPsi, -dx * sinPsi + dy * cosPsi)

/-- The latency-compensation kinematic update (main.cpp lines 114-120),
with `latency = 0.1` and `Lf = 2.67` exactly as in the source; returns
`(px, py, psi, v)` after the update.  All four right-hand sides read the
pre-update values, matching the source order (psi is updated last of the
pose components, after px and py already consumed the old psi). -/
noncomputable def latencyPredict (px py psi v delta acceleration : ℝ) : ℝ × ℝ × ℝ × ℝ :=
  (px + v * Real.cos psi * 0.1,
   py + v * Real.sin psi * 0.1,
   psi + v * delta / 2.67 * 0.1,
   v + acceleration * 0.1)

/-- Waypoint transform loop (main.cpp lines 122-131): every global waypoint
is mapped through `global2car` at the latency-compensated pose. -/
noncomputable def localWayPts (ptsx ptsy : List ℝ) (px py psi : ℝ) : List (ℝ × ℝ) :=
  (ptsx.zip ptsy).map fun p => global2car psi px py p.1 p.2

/-- The per-cycle reference-trajectory fit (main.cpp line 135):
`polyfit(way_pts_x, way_pts_y, 3)` on the local-frame waypoints. -/
noncomputable def cycleCoeffs (qrSolve : List (List ℝ) → List ℝ → List ℝ)
    (ptsx ptsy : List ℝ) (px py psi : ℝ) : Option (List ℝ) :=
  polyfit qrSolve ((localWayPts ptsx ptsy px py psi).map Prod.fst)
    ((localWayPts ptsx ptsy px py psi).map Prod.snd) 3

/-- The state vector handed to `mpc.Solve` (main.cpp lines 139, 143,
157-158): `state << 0, 0, 0, v, cte, epsi` with `cte = polyeval(coeffs, 0)`
and `epsi = -atan(coeffs[1])`. -/
noncomputable def mpcState (v : ℝ) (coeffs : List ℝ) : List ℝ :=
  [0, 0, 0, v, polyeval coeffs 0, -Real.arctan (coeffs.getD 1 0)]

/-- Result of one telemetry cycle: either the emitted
`(steering_angle, throttle)` command, or a process abort from a failed
assert. -/
inductive Outcome where
  | command (steeringAngle throttle : ℝ)
  | crash

/-- Line 165 of main.cpp, `auto result = mpc.Solve(state, coeffs)`, with
`MPC::Solve` abstracted as `solve` (its implementation lives outside
main.cpp) and the state vector of lines 157-158. -/
noncomputable def solveResult (solve : List ℝ → List ℝ → List ℝ)
    (v : ℝ) (coeffs : List ℝ) : List ℝ :=
  solve (mpcState v coeffs) coeffs

/-- The cycle tail after latency compensation (main.cpp lines 122-175):
transform, fit, error terms, solve, and the emitted command
`steering_angle = -result[0] / deg2rad(25)`, `throttle = result[1]`. -/
noncomputable def postPredict (qrSolve : List (List ℝ) → List ℝ → List ℝ)
    (solve : List ℝ → List ℝ → List ℝ)
    (ptsx ptsy : List ℝ) (pred : ℝ × ℝ × ℝ × ℝ) : Outcome :=
  match cycleCoeffs qrSolve ptsx ptsy pred.1 pred.2.1 pred.2.2.1 with
  | none => Outcome.crash
  | some coeffs =>
      Outcome.command
        (-((solveResult solve pred.2.2.2 coeffs).getD 0 0) / deg2rad 25)
        ((solveResult solve pred.2.2.2 coeffs).getD 1 0)

/-- The telemetry branch from the sign conversion on (main.cpp lines
112-175), taking the speed already converted to m/s: `delta = -steering`
(line 112), then the kinematic prediction, then the tail. -/
noncomputable def telemetryCycleV (qrSolve : List (List ℝ) → List ℝ → List ℝ)
    (solve : List ℝ → List ℝ → List ℝ)
    (ptsx ptsy : List ℝ) (px py psi v steering throttle : ℝ) : Outcome :=
  postPredict qrSolve solve ptsx ptsy (latencyPredict px py psi v (-steering) throttle)

/-- The full telemetry branch (main.cpp lines 102-175): the raw speed
field is converted by `v = v * 0.44704` (line 111) and everything after
depends on the speed only through that converted value. -/
noncomputable def telemetryCycle (qrSolve : List (List ℝ) → List ℝ → List ℝ)
    (solve : List ℝ → List ℝ → List ℝ)
    (ptsx ptsy : List ℝ) (px py psi speed steering throttle : ℝ) : Outcome :=
  telemetryCycleV qrSolve solve ptsx ptsy px py psi (speed * 0.44704) steering throttle

/-! ## Helper lemmas -/

/-- A successful `rfind` index never exceeds the string length. -/
lemma lastOcc_le_length (pat s : List Char) (j : ℕ) (h : lastOcc pat s = some j) :
    j ≤ s.length := by
  unfold lastOcc at h
  have hmem := List.mem_of_mem_getLast? h
  have hr := (List.mem_filter.mp hmem).1
  exact Nat.lt_succ_iff.mp (List.mem_range.mp hr)

/-- The reference fit aborts exactly when fewer than `order + 1 = 4`
waypoint pairs reach it. -/
lemma cycleCoeffs_eq_none (qr : List (List ℝ) → List ℝ → List ℝ)
    (ptsx ptsy : List ℝ) (px py psi : ℝ)
    (h : min ptsx.length ptsy.length < 4) :
    cycleCoeffs qr ptsx ptsy px py psi = none := by
  unfold cycleCoeffs polyfit
  rw [if_neg]
  intro hc
  obtain ⟨-, -, h3⟩ := hc
  simp only [localWayPts, List.length_map, List.length_zip] at h3
  omega

/-- With at least 4 waypoint pairs the fit reaches the external QR solve. -/
lemma cycleCoeffs_eq_some (qr : List (List ℝ) → List ℝ → List ℝ)
    (ptsx ptsy : List ℝ) (px py psi : ℝ)
    (h : 4 ≤ min ptsx.length ptsy.length) :
    cycleCoeffs qr ptsx ptsy px py psi =
      some (qr (((localWayPts ptsx ptsy px py psi).map Prod.fst).map fun xj => vanderRow xj 3)
        ((localWayPts ptsx ptsy px py psi).map Prod.snd)) := by
  unfold cycleCoeffs polyfit
  rw [if_pos]
  refine ⟨by simp [localWayPts], by norm_num, ?_⟩
  simp only [localWayPts, List.length_map, List.length_zip]
  push_cast
  omega

/-- The constant `deg2rad 25` is strictly positive. -/
lemma deg2rad_25_pos : 0 < deg2rad 25 := by
  unfold deg2rad
  have h := Real.pi_pos
  linarith

/-- The constant `deg2rad 25` is strictly below 1 (25 degrees is about 0.436 rad). -/
lemma deg2rad_25_lt_one : deg2rad 25 < 1 := by
  unfold deg2rad
  have h := Real.pi_lt_d2
  linarith

/-! ## Claim theorems -/

/-- C4: the frame transform returns exactly
`(dx·cos ψ + dy·sin ψ, −dx·sin ψ + dy·cos ψ)` with `dx = x − x₀`,
`dy = y − y₀`, with no approximation. -/
theorem global2car_formula (psi px py x y : ℝ) :
    global2car psi px py x y =
      ((x - px) * Real.cos psi + (y - py) * Real.sin psi,
       -(x - px) * Real.sin psi + (y - py) * Real.cos psi) := rfl

/-- C5: the frame transform preserves the squared Euclidean distance from
the vehicle position, and maps the vehicle's own position to `(0, 0)`. -/
theorem global2car_isometry (psi px py x y : ℝ) :
    (global2car psi px py x y).1 ^ 2 + (global2car psi px py x y).2 ^ 2
        = (x - px) ^ 2 + (y - py) ^ 2 ∧
    global2car psi px py px py = (0, 0) := by
  constructor
  · simp only [global2car]
    linear_combination ((x - px) ^ 2 + (y - py) ^ 2) * Real.sin_sq_add_cos_sq psi
  · simp [global2car]

/-- C6: for a fitted coefficient vector `[c0, c1, c2, c3]` the cycle's
cross-track error `polyeval(coeffs, 0)` equals exactly `c0` and its heading
error equals exactly `−atan(c1)`, as placed in the solver state vector. -/
theorem error_terms_from_coeffs (v c0 c1 c2 c3 : ℝ) :
    polyeval [c0, c1, c2, c3] 0 = c0 ∧
    mpcState v [c0, c1, c2, c3] = [0, 0, 0, v, c0, -Real.arctan c1] := by
  have h1 : polyeval [c0, c1, c2, c3] 0
      = 0 + c0 * (0 : ℝ) ^ 0 + c1 * 0 ^ 1 + c2 * 0 ^ 2 + c3 * 0 ^ 3 := rfl
  have h2 : polyeval [c0, c1, c2, c3] 0 = c0 := by rw [h1]; norm_num
  exact ⟨h2, by simp [mpcState, h2]⟩

/-- C7: the latency compensator computes exactly
`x' = x + v·cos ψ·Δt`, `y' = y + v·sin ψ·Δt`, `ψ' = ψ + (v/Lf)·δ·Δt`,
`v' = v + a·Δt` with `Δt = 0.1` and `Lf = 2.67`, and the telemetry cycle
applies it before the frame transform, the fit and the solve. -/
theorem latency_model_formulas (qr : List (List ℝ) → List ℝ → List ℝ)
    (solve : List ℝ → List ℝ → List ℝ) (ptsx ptsy : List ℝ)
    (px py psi v delta acceleration steering throttle : ℝ) :
    latencyPredict px py psi v delta acceleration =
      (px + v * Real.cos psi * 0.1, py + v * Real.sin psi * 0.1,
       psi + (v / 2.67) * delta * 0.1, v + acceleration * 0.1) ∧
    telemetryCycleV qr solve ptsx ptsy px py psi v steering throttle =
      postPredict qr solve ptsx ptsy (latencyPredict px py psi v (-steering) throttle) := by
  refine ⟨?_, rfl⟩
  simp only [latencyPredict, Prod.mk.injEq, true_and, and_true]
  ring

/-- C1 (counterexample): with only 3 waypoints the cycle aborts through the
failed `assert` in `polyfit` (modelled as `Outcome.crash`); it does not
produce the safe-default zero command, contradicting the claim that the
cycle reports a validation error rather than crashing the process. -/
theorem polyfit_three_points_aborts :
    telemetryCycle (fun _ _ => []) (fun _ _ => [0, 0]) [0, 1, 2] [0, 0, 0] 0 0 0 0 0 0
        = Outcome.crash ∧
    Outcome.crash ≠ Outcome.command 0 0 := by
  constructor
  · unfold telemetryCycle telemetryCycleV postPredict
    rw [cycleCoeffs_eq_none _ _ _ _ _ _ (by norm_num)]
  · intro h
    exact Outcome.noConfusion h

/-- C1 (amended): whenever fewer than `degree + 1 = 4` waypoints are
supplied, the cycle terminates by assertion failure (process abort) in
`polyfit`; no command and no safe default is emitted because the process
crashes. -/
theorem few_waypoints_crash (qr : List (List ℝ) → List ℝ → List ℝ)
    (solve : List ℝ → List ℝ → List ℝ) (ptsx ptsy : List ℝ)
    (px py psi speed steering throttle : ℝ)
    (hfew : ptsx.length < 4) (hlen : ptsx.length = ptsy.length) :
    telemetryCycle qr solve ptsx ptsy px py psi speed steering throttle = Outcome.crash := by
  unfold telemetryCycle telemetryCycleV postPredict
  rw [cycleCoeffs_eq_none _ _ _ _ _ _ (by omega)]

/-- C1 (witness): a concrete 3-waypoint cycle hits the crash outcome. -/
theorem few_waypoints_crash_witness :
    telemetryCycle (fun _ _ => []) (fun _ _ => [0, 0]) [5, 6, 7] [1, 1, 1] 2 3 4 5 6 7
        = Outcome.crash :=
  few_waypoints_crash _ _ _ _ _ _ _ _ _ _ (by decide) (by decide)

/-- C2 (counterexample): the handler applies whatever `MPC::Solve` returns.
Instantiating the solver with the garbage output `[0, 100]` of a
non-converged solve, the cycle emits throttle `100` — an unvalidated value
far outside `[-1, 1]` — instead of holding any previous command, refuting
the hold-fallback claim at this input. -/
theorem failed_solve_output_emitted :
    telemetryCycle (fun _ _ => [0, 0, 0, 0]) (fun _ _ => [0, 100]) [0, 1, 2, 3]
        [0, 0, 0, 0] 0 0 0 0 0 0 = Outcome.command 0 100 ∧
    ¬(-1 ≤ (100 : ℝ) ∧ (100 : ℝ) ≤ 1) := by
  refine ⟨?_, by norm_num⟩
  unfold telemetryCycle telemetryCycleV postPredict
  rw [cycleCoeffs_eq_some _ _ _ _ _ _ (by decide)]
  simp [solveResult]

/-- C2 (amended): whenever the fit succeeds, the emitted command is
computed unconditionally from the current solver result as
`(-result[0] / deg2rad 25, result[1])`, for every solver behaviour; the
handler consumes no convergence signal, stores no previous command and
performs no validation of the solver output. -/
theorem emission_unconditional (qr : List (List ℝ) → List ℝ → List ℝ)
    (solve : List ℝ → List ℝ → List ℝ) (ptsx ptsy : List ℝ)
    (pred : ℝ × ℝ × ℝ × ℝ) (coeffs : List ℝ)
    (h : cycleCoeffs qr ptsx ptsy pred.1 pred.2.1 pred.2.2.1 = some coeffs) :
    postPredict qr solve ptsx ptsy pred =
      Outcome.command
        (-((solveResult solve pred.2.2.2 coeffs).getD 0 0) / deg2rad 25)
        ((solveResult solve pred.2.2.2 coeffs).getD 1 0) := by
  unfold postPredict
  rw [h]

/-- C2 (witness): the unconditional emission equation at a concrete cycle. -/
theorem emission_unconditional_witness :
    postPredict (fun _ _ => [0, 0, 0, 0]) (fun _ _ => [0, 0]) [0, 1, 2, 3] [0, 0, 0, 0]
        (latencyPredict 0 0 0 0 0 0)
      = Outcome.command (-(0 : ℝ) / deg2rad 25) 0 :=
  emission_unconditional _ _ _ _ _ [0, 0, 0, 0]
    ((cycleCoeffs_eq_some _ _ _ _ _ _ (by decide)).trans rfl)

/-- C3 (counterexample): an out-of-bounds actuation returned by a
"converged" solve is not clamped: with solver output `[1, 2]` the emitted
steering is `-1 / deg2rad 25 < -1` and the emitted throttle is `2 > 1`,
both outside the declared normalized range `[-1, 1]`. -/
theorem unclamped_output_escapes_bounds :
    telemetryCycle (fun _ _ => [0, 0, 0, 0]) (fun _ _ => [1, 2]) [0, 1, 2, 3]
        [0, 0, 0, 0] 0 0 0 0 0 0
      = Outcome.command (-1 / deg2rad 25) 2 ∧
    -1 / deg2rad 25 < -1 ∧ (1 : ℝ) < 2 := by
  refine ⟨?_, ?_, by norm_num⟩
  · unfold telemetryCycle telemetryCycleV postPredict
    rw [cycleCoeffs_eq_some _ _ _ _ _ _ (by decide)]
    simp [solveResult]
  · rw [div_lt_iff₀ deg2rad_25_pos]
    have h := deg2rad_25_lt_one
    linarith

/-- C3 (amended): no clamping is performed; the emitted pair is exactly
`(-result[0] / deg2rad 25, result[1])`, and it lies inside the normalized
range `[-1, 1]` only under the hypothesis that the solver respected its own
bounds (steering within `±deg2rad 25`, throttle within `±1`). -/
theorem emission_bounds_conditional (qr : List (List ℝ) → List ℝ → List ℝ)
    (solve : List ℝ → List ℝ → List ℝ) (ptsx ptsy : List ℝ)
    (pred : ℝ × ℝ × ℝ × ℝ) (coeffs : List ℝ)
    (h : cycleCoeffs qr ptsx ptsy pred.1 pred.2.1 pred.2.2.1 = some coeffs)
    (hs : |(solveResult solve pred.2.2.2 coeffs).getD 0 0| ≤ deg2rad 25)
    (ht : |(solveResult solve pred.2.2.2 coeffs).getD 1 0| ≤ 1) :
    postPredict qr solve ptsx ptsy pred =
      Outcome.command
        (-((solveResult solve pred.2.2.2 coeffs).getD 0 0) / deg2rad 25)
        ((solveResult solve pred.2.2.2 coeffs).getD 1 0) ∧
    |(-((solveResult solve pred.2.2.2 coeffs).getD 0 0) / deg2rad 25)| ≤ 1 ∧
    |(solveResult solve pred.2.2.2 coeffs).getD 1 0| ≤ 1 := by
  refine ⟨?_, ?_, ht⟩
  · unfold postPredict
    rw [h]
  · rw [abs_div, abs_neg, abs_of_pos deg2rad_25_pos]
    exact div_le_one_of_le₀ hs (le_of_lt deg2rad_25_pos)

/-- C3 (witness): the conditional bound at a concrete cycle with an
in-bounds solver output. -/
theorem emission_bounds_conditional_witness :
    postPredict (fun _ _ => [0, 0, 0, 0]) (fun _ _ => [0, 0]) [0, 1, 2, 3] [0, 0, 0, 0]
        (latencyPredict 0 0 0 0 0 0)
      = Outcome.command (-(0 : ℝ) / deg2rad 25) 0 ∧
    |(-(0 : ℝ) / deg2rad 25)| ≤ 1 ∧ |(0 : ℝ)| ≤ 1 :=
  emission_bounds_conditional _ _ _ _ _ [0, 0, 0, 0]
    ((cycleCoeffs_eq_some _ _ _ _ _ _ (by decide)).trans rfl)
    (by rw [show (solveResult (fun _ _ => [0, 0]) (latencyPredict 0 0 0 0 0 0).2.2.2
        [0, 0, 0, 0]).getD 0 0 = (0 : ℝ) from rfl, abs_zero]
        exact le_of_lt deg2rad_25_pos)
    (by norm_num [solveResult])

/-- C8: the telemetry steering angle is negated (`delta = -steering_angle`)
before the latency compensator consumes it; on emission the solver's first
output is negated again and divided by `deg2rad 25` (25 degrees in
radians), while the solver's throttle output is passed through unchanged. -/
theorem steering_sign_and_scaling (qr : List (List ℝ) → List ℝ → List ℝ)
    (solve : List ℝ → List ℝ → List ℝ) (ptsx ptsy : List ℝ)
    (px py psi v steering throttle : ℝ) (coeffs : List ℝ)
    (h : cycleCoeffs qr ptsx ptsy
        (latencyPredict px py psi v (-steering) throttle).1
        (latencyPredict px py psi v (-steering) throttle).2.1
        (latencyPredict px py psi v (-steering) throttle).2.2.1 = some coeffs) :
    telemetryCycleV qr solve ptsx ptsy px py psi v steering throttle =
      postPredict qr solve ptsx ptsy (latencyPredict px py psi v (-steering) throttle) ∧
    deg2rad 25 = 25 * Real.pi / 180 ∧
    telemetryCycleV qr solve ptsx ptsy px py psi v steering throttle =
      Outcome.command
        (-((solveResult solve (latencyPredict px py psi v (-steering) throttle).2.2.2
            coeffs).getD 0 0) / deg2rad 25)
        ((solveResult solve (latencyPredict px py psi v (-steering) throttle).2.2.2
            coeffs).getD 1 0) := by
  refine ⟨rfl, rfl, ?_⟩
  unfold telemetryCycleV postPredict
  rw [h]

/-- C8 (witness): the sign/scaling equations hold at a concrete cycle. -/
theorem steering_sign_and_scaling_witness : deg2rad 25 = 25 * Real.pi / 180 :=
  (steering_sign_and_scaling (fun _ _ => [0, 0, 0, 0]) (fun _ _ => [0, 0])
    [0, 1, 2, 3] [0, 0, 0, 0] 0 0 0 0 0 0 [0, 0, 0, 0]
    ((cycleCoeffs_eq_some _ _ _ _ _ _ (by decide)).trans rfl)).2.1

/-- C9: the raw telemetry speed is multiplied by 0.44704 (mph to m/s)
before the latency compensation, the compensated speed placed in the state
vector is that converted value plus `throttle * 0.1`, and the whole cycle
output depends on the telemetry speed only through the converted value. -/
theorem speed_conversion_factored (qr : List (List ℝ) → List ℝ → List ℝ)
    (solve : List ℝ → List ℝ → List ℝ) (ptsx ptsy : List ℝ)
    (px py psi speed steering throttle : ℝ) :
    telemetryCycle qr solve ptsx ptsy px py psi speed steering throttle =
      telemetryCycleV qr solve ptsx ptsy px py psi (speed * 0.44704) steering throttle ∧
    (latencyPredict px py psi (speed * 0.44704) (-steering) throttle).2.2.2
      = speed * 0.44704 + throttle * 0.1 ∧
    ∀ speed2 : ℝ, speed2 * 0.44704 = speed * 0.44704 →
      telemetryCycle qr solve ptsx ptsy px py psi speed2 steering throttle =
        telemetryCycle qr solve ptsx ptsy px py psi speed steering throttle := by
  refine ⟨rfl, rfl, ?_⟩
  intro speed2 hs2
  unfold telemetryCycle
  rw [hs2]

/-- C9 (witness): the factorization through the converted speed at a
concrete cycle. -/
theorem speed_conversion_factored_witness :
    (1 : ℝ) * 0.44704 = 1 * 0.44704 ∧
    telemetryCycle (fun _ _ => []) (fun _ _ => [0, 0]) [0, 1, 2] [0, 0, 0] 0 0 0 1 0 0 =
      telemetryCycle (fun _ _ => []) (fun _ _ => [0, 0]) [0, 1, 2] [0, 0, 0] 0 0 0 1 0 0 :=
  ⟨rfl, (speed_conversion_factored (fun _ _ => []) (fun _ _ => [0, 0])
    [0, 1, 2] [0, 0, 0] 0 0 0 1 0 0).2.2 1 rfl⟩


theorem hasData_bracket_order_counterexample :
    hasData [rbrace, ']', 'x', 'x', '[', 'a', 'b', 'c'] = ['[', 'a', 'b', 'c'] ∧
    ['[', 'a', 'b', 'c'] ≠ ([] : List Char) := by
  constructor
  · decide
  · decide

theorem hasData_characterization :
    (∀ s : List Char, (firstOcc ['n', 'u', 'l', 'l'] s).isSome → hasData s = []) ∧
    (∀ s : List Char, firstOcc ['n', 'u', 'l', 'l'] s = none →
        firstOcc ['['] s = none ∨ lastOcc [rbrace, ']'] s = none → hasData s = []) ∧
    (∀ (s : List Char) (i j : ℕ), firstOcc ['n', 'u', 'l', 'l'] s = none →
        firstOcc ['['] s = some i → lastOcc [rbrace, ']'] s = some j →
        hasData s = (s.drop i).take (((j : ℤ) - (i : ℤ) + 2) % (2 ^ 64 : ℤ)).toNat) ∧
    (∀ (s : List Char) (i j : ℕ), firstOcc ['n', 'u', 'l', 'l'] s = none →
        firstOcc ['['] s = some i → lastOcc [rbrace, ']'] s = some j →
        i ≤ j → s.length + 2 < 2 ^ 64 →
        hasData s = (s.drop i).take (j + 2 - i)) ∧
    (∀ sdata : List Char, 2 < sdata.length → sdata.getD 0 ' ' = '4' →
        sdata.getD 1 ' ' = '2' → hasData sdata = [] → dispatch sdata = Reply.manual) := by
  have key : ∀ (s : List Char) (i j : ℕ), firstOcc ['n', 'u', 'l', 'l'] s = none →
      firstOcc ['['] s = some i → lastOcc [rbrace, ']'] s = some j →
      hasData s = (s.drop i).take (((j : ℤ) - (i : ℤ) + 2) % (2 ^ 64 : ℤ)).toNat := by
    intro s i j h1 h2 h3
    unfold hasData
    rw [h1, h2, h3]
  refine ⟨?_, ?_, key, ?_, ?_⟩
  · intro s h
    obtain ⟨k, hk⟩ := Option.isSome_iff_exists.mp h
    unfold hasData
    rw [hk]
  · intro s h1 h2
    unfold hasData
    rw [h1]
    rcases h2 with h2 | h2
    · rw [h2]
    · rw [h2]
      rcases hb1 : firstOcc ['['] s with _ | i <;> rfl
  · intro s i j h1 h2 h3 hij hlen
    rw [key s i j h1 h2 h3]
    have hjle : j ≤ s.length := lastOcc_le_length _ _ _ h3
    congr 1
    rw [Int.emod_eq_of_lt (by omega) (by omega)]
    omega
  · intro sdata h1 h2 h3 h4
    unfold dispatch
    rw [if_pos ⟨h1, h2, h3⟩, h4]
    simp

theorem hasData_characterization_witness :
    hasData ['n', 'u', 'l', 'l'] = [] ∧
    hasData ['4', '2', '['] = [] ∧
    hasData ['[', 'a', rbrace, ']'] = (['[', 'a', rbrace, ']'].drop 0).take (2 + 2 - 0) ∧
    dispatch ['4', '2', 'x'] = Reply.manual :=
  ⟨hasData_characterization.1 _ (by decide),
   hasData_characterization.2.1 _ (by decide) (Or.inr (by decide)),
   hasData_characterization.2.2.2.1 _ 0 2 (by decide) (by decide) (by decide)
     (by decide) (by decide),
   hasData_characterization.2.2.2.2 _ (by decide) (by decide) (by decide) (by decide)⟩

end MpcMain
